import Mathlib

/-!
Verification of the telminal process-session engine (`src/telminal/core.py`)
against its natural-language specification.

The embedding is shallow: each method of `TProcess` / `Telminal` that the claims
touch is translated into a pure Lean function over an explicit state record.
Wall-clock time (`time()`) is passed in as an explicit `Nat` parameter; the
pexpect pty channel is modelled by the list of keystrokes sent to it
(`Key`), and the chat transport by the outward action emitted (`OutAction`).
Python `None` values for the boolean fields `is_running` / `is_partial` are
collapsed to `false`: every guard in the scope of the claims tests these
fields only by truthiness, under which `None` and `False` agree.
-/

namespace Telminal

/-- A keystroke sent to the underlying pty channel: either a control code
(`pexpect.sendcontrol`) or literal bytes (`pexpect.send`). -/
inductive Key
  | ctrl (c : Char)
  | send (s : String)
deriving DecidableEq, Repr

/-- Shape of the inline button set built by `TProcess.update_buttons`.
The source builds five rows for a running process (with the interactive
toggle's label depending on `is_interactive_process`) and two rows for a
finished one; the concrete labels and callback payloads are elided, the
constructor records exactly the fields of the session that determine the
set. -/
inductive ButtonSet
  | running (interactive : Bool)
  | done
deriving DecidableEq, Repr

/-- Python `s.startswith(p)`: `p` is a prefix of `s` (character-wise). -/
def strStartsWith (s p : String) : Bool :=
  p.data.isPrefixOf s.data

/-- Python `s[-1]`, the last character (callers guarantee `s` is
non-empty). -/
def lastChar (s : String) : Char :=
  s.data.getLastD '^'

/-- Python `s.split("\n")` over the character list: split at every
newline, keeping empty pieces, so the result always has one more piece
than there are newlines (`"".split("\n") == [""]`). -/
def splitNlChars : List Char → List (List Char)
  | [] => [[]]
  | c :: rest =>
    if c = '\n' then [] :: splitNlChars rest
    else
      match splitNlChars rest with
      | [] => [[c]]
      | s :: ss => (c :: s) :: ss

/-- Python `s.split("\n")` on strings. -/
def splitNl (s : String) : List String :=
  (splitNlChars s.data).map String.mk

/-- State of one `TProcess` (src/telminal/core.py, class `TProcess`).
`buffer` is the accumulated `StringIO` contents; `last_message` is
`Option String` because the source assigns `None` to it when a blank
output is pushed; `isPartial` is the source's `is_partial` flag. -/
structure TProcess where
  command : String
  request_id : Nat
  buffer : String
  is_running : Bool
  isPartial : Bool
  start_time : Nat
  run_time : Nat
  new_data : Bool
  response_id : Option Nat
  last_message : Option String
  buttons : Option ButtonSet
  is_interactive_process : Bool
  done_time : Nat
  last_update_time : Nat
  pid : Nat
deriving DecidableEq, Repr

/-- `TProcess.__init__(command, request_id)`: empty buffer, not yet running,
`_last_message = ""`, no buttons, not interactive. Fields the source leaves
unset until later (`done_time`, `pid`, ...) start at zero. -/
def TProcess.init (command : String) (request_id : Nat) : TProcess where
  command := command
  request_id := request_id
  buffer := ""
  is_running := false
  isPartial := false
  start_time := 0
  run_time := 0
  new_data := false
  response_id := none
  last_message := some ""
  buttons := none
  is_interactive_process := false
  done_time := 0
  last_update_time := 0
  pid := 0

/-- `TProcess.run`: spawn assigns the pid, sets `is_running = True` and
records `start_time = time()` (spawning itself is an external effect). -/
def TProcess.run (p : TProcess) (pid t : Nat) : TProcess :=
  { p with pid := pid, is_running := true, start_time := t }

/-- `TProcess.done`: `is_running = False; done_time = time()`. -/
def TProcess.done (p : TProcess) (t : Nat) : TProcess :=
  { p with is_running := false, done_time := t }

/-- `TProcess.terminate`: signals the underlying process (an external
effect on the pty, no session-state change) and then calls `done()`. -/
def TProcess.terminate (p : TProcess) (t : Nat) : TProcess :=
  p.done t

/-- Body of the `for index, word in enumerate(command.split("\n"))` loop
of `TProcess.push`: first send Enter (`sendcontrol("m")`) when the index
is nonzero, then send Enter if the piece is empty and its literal bytes
otherwise. -/
def pushPiece (iw : Nat × String) : List Key :=
  (if iw.1 ≠ 0 then [Key.ctrl 'm'] else []) ++
  (if iw.2 = "" then [Key.ctrl 'm'] else [Key.send iw.2])

/-- `TProcess.push(command)`: the keystrokes one call sends to the pty.
Control branch for two-character `^?` texts, otherwise the enumerated
split-loop (`pushPiece` per piece).  The source never consults
`is_running` here, hence the unused session argument. -/
def TProcess.push (_p : TProcess) (command : String) : List Key :=
  if strStartsWith command "^" && command.length == 2 then
    [Key.ctrl (lastChar command)]
  else
    ((splitNl command).enum.map pushPiece).flatten

/-- Outcome of one `read_nonblocking` attempt in `TProcess.stream`:
a decoded chunk of output, end-of-stream (`pexpect.EOF`), or no data
ready right now (`pexpect.TIMEOUT`). -/
inductive ReadEvent
  | data (chunk : String)
  | eof
  | nodata
deriving DecidableEq, Repr

/-- One iteration of the `while True` body of `TProcess.stream`, given the
read outcome `ev` at wall-clock time `t`: a chunk is appended to the buffer
and sets `_new_data`; EOF calls `done()`; TIMEOUT is a no-op.  The
`finally` clause recomputes `run_time = int(time() - start_time)` on every
path. -/
def streamStep (p : TProcess) (ev : ReadEvent) (t : Nat) : TProcess :=
  let p1 :=
    match ev with
    | ReadEvent.data chunk => { p with buffer := p.buffer ++ chunk, new_data := true }
    | ReadEvent.eof => p.done t
    | ReadEvent.nodata => p
  { p1 with run_time := t - p1.start_time }

/-- The `TProcess.stream` loop over a finite schedule of read outcomes,
each paired with the time at which its iteration runs.  The loop `break`s
right after the EOF iteration, so events past the first EOF are never
processed. -/
def streamRun (p : TProcess) : List (ReadEvent × Nat) → TProcess
  | [] => p
  | (ev, t) :: rest =>
    match ev with
    | ReadEvent.eof => streamStep p ev t
    | _ => streamRun (streamStep p ev t) rest

/-- The output chunks the stream loop actually appends when fed `evts`:
all `data` chunks strictly before the first EOF, in order. -/
def chunksUntilEof : List (ReadEvent × Nat) → List String
  | [] => []
  | (ReadEvent.data c, _) :: rest => c :: chunksUntilEof rest
  | (ReadEvent.eof, _) :: _ => []
  | (ReadEvent.nodata, _) :: rest => chunksUntilEof rest

/-- Concatenation of a list of chunks in order. -/
def concatChunks (l : List String) : String :=
  l.foldr (fun a b => a ++ b) ""

/-- Does the schedule contain an EOF outcome? -/
def hasEof (evts : List (ReadEvent × Nat)) : Bool :=
  evts.any (fun e => e.1 == ReadEvent.eof)

/-- `TProcess.full_output`: rewind the `StringIO` to position 0 and read
everything, i.e. the entire accumulated buffer. -/
def TProcess.full_output (p : TProcess) : String :=
  p.buffer

/-- `TProcess.update_buttons`: rebuild the button set from `is_running`
and `is_interactive_process`; if it differs from the stored one, store it
and report `True`, else report `False`. -/
def TProcess.update_buttons (p : TProcess) : Bool × TProcess :=
  let bs := if p.is_running then ButtonSet.running p.is_interactive_process
            else ButtonSet.done
  if p.buttons ≠ some bs then (true, { p with buttons := some bs })
  else (false, p)

/-- `TProcess.has_new_state(new_buttons, new_output)`:
`new_buttons or (new_output and self.last_message != new_output)` under
Python truthiness — a string is truthy iff non-empty, and the stored
`_last_message` may be `None` (never equal to any string). -/
def TProcess.has_new_state (p : TProcess) (new_buttons : Bool)
    (new_output : String) : Bool :=
  new_buttons || (new_output != "" && p.last_message != some new_output)

/-- `Telminal.PROCESS_OUTPUT_LIFE_TIME`. -/
def PROCESS_OUTPUT_LIFE_TIME : Nat := 60

/-- Removal test of one `Telminal.process_cleaner` iteration for a single
registry entry: `not process.is_running and
int(time() - process.done_time) > PROCESS_OUTPUT_LIFE_TIME`. -/
def cleanerRemoves (now : Nat) (p : TProcess) : Bool :=
  !p.is_running && decide (now - p.done_time > PROCESS_OUTPUT_LIFE_TIME)

/-- One pass of the `for pid, process in cls.all_processes.copy().items()`
loop of `Telminal.process_cleaner` over a registry snapshot: every entry
satisfying the removal test is deleted, the rest are kept untouched. -/
def cleanerStep (now : Nat) (reg : List (Nat × TProcess)) :
    List (Nat × TProcess) :=
  reg.filter (fun e => !cleanerRemoves now e.2)

/-- The artifact files the same pass asks `utils.silent_file_remover` to
delete (best-effort, external effect): the per-pid HTML snapshot and
screenshot of every removed session. -/
def cleanerDeletedFiles (now : Nat) (reg : List (Nat × TProcess)) :
    List String :=
  (reg.filter (fun e => cleanerRemoves now e.2)).flatMap
    (fun e => [toString e.1 ++ ".html", toString e.1 ++ ".png"])

/-- The outward transport call made by one run of `Telminal.response`:
nothing (the `has_new_state` gate failed), an `edit_message` of the
existing response message, or a fresh `send_message`.  `body = none`
models passing `message=None`, i.e. omitting the text body. -/
inductive OutAction
  | skip
  | editMsg (body : Option String) (buttons : Option ButtonSet)
  | sendMsg (body : String) (buttons : Option ButtonSet)
deriving DecidableEq, Repr

/-- `not any(output.split("\n"))`: every line of `output` is empty. -/
def allBlankLines (s : String) : Bool :=
  (splitNl s).all (fun w => w = "")

/-- `Telminal.response(process, chat_id)`.  The renderer is external, so
its two candidate texts are parameters: `media_output` is
`process.media_output` checked by the first gate, `rendered` is the text
returned by `render_xtermjs` and checked by the second gate (they coincide
when no browser is available).  `t` is the wall-clock time of the
`last_message` setter, `new_id` the id of a freshly sent message.
Mirrors the source: update buttons once, two `has_new_state` gates, then
either edit the existing message (substituting `None` for an all-blank
body) or send the first message and mark the session partial; finally the
`last_message` setter stores the pushed body and clears `_new_data`. -/
def response (p : TProcess) (media_output rendered : String)
    (t new_id : Nat) : OutAction × TProcess :=
  let nb := p.update_buttons
  let new_buttons := nb.1
  let p1 := nb.2
  if !p1.has_new_state new_buttons media_output then (OutAction.skip, p1)
  else if !p1.has_new_state new_buttons rendered then (OutAction.skip, p1)
  else if p1.isPartial then
    let body := if allBlankLines rendered then none else some rendered
    (OutAction.editMsg body p1.buttons,
     { p1 with last_message := body, new_data := false,
               last_update_time := t })
  else
    (OutAction.sendMsg rendered p1.buttons,
     { p1 with response_id := some new_id, isPartial := true,
               last_message := some rendered, new_data := false,
               last_update_time := t })

/-- The interactive-exclusivity state of a `Telminal` instance:
`interactive` is `self.interactive_process` (by pid, `none` for Python
`None`), and `flag` gives each session's `is_interactive_process` field.
The sessions are shared mutable objects in the source, so setting the
current holder's flag to `False` is modelled by updating `flag` at the
held pid. -/
structure InteractState where
  interactive : Option Nat
  flag : Nat → Bool

/-- `Telminal.set_interactive_process(process)`: if some session is
currently held (`isinstance(..., TProcess)`), clear its flag; then store
the new session and set its flag. -/
def set_interactive_process (s : InteractState) (p : Nat) : InteractState :=
  let cleared :=
    match s.interactive with
    | some q => fun x => if x = q then false else s.flag x
    | none => s.flag
  { interactive := some p
    flag := fun x => if x = p then true else cleared x }

/-- `Telminal.reset_interactive_process()`: clear the current holder's
flag (if any) and hold nothing. -/
def reset_interactive_process (s : InteractState) : InteractState :=
  let cleared :=
    match s.interactive with
    | some q => fun x => if x = q then false else s.flag x
    | none => s.flag
  { interactive := none, flag := cleared }

/-- The registry/flag consistency invariant maintained by the router: a
session's `is_interactive_process` flag is set only when
`self.interactive_process` holds exactly that session. -/
def InteractInv (s : InteractState) : Prop :=
  ∀ x, s.flag x = true → s.interactive = some x

/-- Where `Telminal._all_messages_handler` routes one incoming event. -/
inductive Route
  | download
  | command (message : String)
  | pushInteractive (text : String)
  | spawn (command : String)
deriving DecidableEq, Repr

/-- The dispatch of `Telminal._all_messages_handler` for a message text:
file events get download buttons; texts starting with `cd`, `/` or `!`
and not escaped by a leading backslash are commands; otherwise, with an
interactive session active, the text (minus a leading escape backslash)
is pushed to it; else it spawns a new process. -/
def all_messages_route (has_file interactive : Bool) (message : String) :
    Route :=
  let escape := strStartsWith message "\\"
  if has_file then Route.download
  else if (strStartsWith message "cd" || strStartsWith message "/"
            || strStartsWith message "!") && !escape then
    Route.command message
  else if interactive then
    Route.pushInteractive (if escape then message.drop 1 else message)
  else
    Route.spawn message

/-- Keystrokes the spec assigns to a single line of `pushInput` text: an
empty line contributes only an Enter, a non-empty line its literal
bytes. -/
def specLineKeys (w : String) : List Key :=
  if w = "" then [Key.ctrl 'm'] else [Key.send w]

/-- Modelled from the claim's words (C7 as stated): a two-character text
`^` followed by one LETTER sends the control code; any other text is
split on line breaks, every line after the first is preceded by an Enter,
and each line contributes per `specLineKeys`, with no trailing Enter. -/
def pushSpecLetter (command : String) : List Key :=
  if strStartsWith command "^" && command.length == 2
      && (lastChar command).isAlpha then
    [Key.ctrl (lastChar command)]
  else
    match splitNl command with
    | [] => []
    | w :: ws => specLineKeys w ++ ws.flatMap (fun v => Key.ctrl 'm' :: specLineKeys v)

/-- The amended reading of C7: as `pushSpecLetter`, but the control branch
applies to `^` followed by ANY single character, as the source does. -/
def pushSpecAnyChar (command : String) : List Key :=
  if strStartsWith command "^" && command.length == 2 then
    [Key.ctrl (lastChar command)]
  else
    match splitNl command with
    | [] => []
    | w :: ws => specLineKeys w ++ ws.flatMap (fun v => Key.ctrl 'm' :: specLineKeys v)

/-- A Done session whose `done_time` is 61 seconds before the reference
reap instant 100. -/
def procDone61 : TProcess := ((TProcess.init "a" 1).run 11 0).terminate 39

/-- A Done session whose `done_time` is 59 seconds before the reference
reap instant 100. -/
def procDone59 : TProcess := ((TProcess.init "b" 2).run 12 0).terminate 41

/-- A session still Running at the reference reap instant. -/
def procRunning : TProcess := (TProcess.init "c" 3).run 13 0

/-- A three-entry registry snapshot exercising every reaper case. -/
def regC8 : List (Nat × TProcess) :=
  [(11, procDone61), (12, procDone59), (13, procRunning)]

/-- A session mid-run that has already produced its outward message. -/
def procC9 : TProcess :=
  { (TProcess.init "c" 1).run 5 0 with isPartial := true }

/-! ## Theorems -/

/-- C1: the claim states that `push` on a Done session fails with
`SessionNotRunning` and sends nothing.  Counterexample: a session
terminated at time 3 (`is_running = false`) still gets its keystrokes
delivered — `push "x"` sends the literal bytes `"x"`, a non-empty
keystroke sequence, and no error path exists. -/
theorem C1_counterexample :
    ((((TProcess.init "sleep 5" 1).run 7 0).terminate 3).is_running = false) ∧
    ((((TProcess.init "sleep 5" 1).run 7 0).terminate 3).push "x"
      = [Key.send "x"]) ∧
    ((((TProcess.init "sleep 5" 1).run 7 0).terminate 3).push "x" ≠ []) := by
  decide

/-- C1 (amended): `TProcess.push` never inspects the session's lifecycle
state and has no failure path: the keystrokes sent for a given text are
identical for every session, Running or Done alike, so no
`SessionNotRunning` error is ever raised. -/
theorem C1_push_state_blind (p q : TProcess) (text : String) :
    p.push text = q.push text := rfl

/-- C2: the claim states that a second `terminate()` is a no-op keeping
the first `doneTime`.  Counterexample: terminating at time 3 and again at
time 5 leaves `done_time = 5`, not the 3 recorded by the first call, so
the two-call state differs from the one-call state. -/
theorem C2_counterexample :
    (((((TProcess.init "sleep 5" 1).run 7 0).terminate 3).terminate 5).done_time = 5) ∧
    ((((TProcess.init "sleep 5" 1).run 7 0).terminate 3).done_time = 3) ∧
    ((((TProcess.init "sleep 5" 1).run 7 0).terminate 3).terminate 5
      ≠ ((TProcess.init "sleep 5" 1).run 7 0).terminate 3) := by
  decide

/-- C2 (amended): `terminate` always leaves the session Done, and a
second call overwrites `done_time` with its own call time — two calls
are equivalent to a single call at the second call's time, so the
observable state of a double terminate agrees with a single one only in
the Done flag, not in `doneTime`. -/
theorem C2_terminate_last_write_wins (p : TProcess) (t1 t2 : Nat) :
    ((p.terminate t1).terminate t2 = p.terminate t2) ∧
    ((p.terminate t1).is_running = false) :=
  ⟨rfl, rfl⟩

/-- Pieces enumerated from index `n + 1` onward all take the nonzero-index
branch of `pushPiece`: each contributes an Enter followed by its
contribution. -/
theorem pushPiece_enumFrom_succ (ws : List String) (n : Nat) :
    ((List.enumFrom (n + 1) ws).map pushPiece).flatten
      = ws.flatMap (fun v => Key.ctrl 'm' :: specLineKeys v) := by
  induction ws generalizing n with
  | nil => rfl
  | cons w ws ih =>
    simp only [List.enumFrom, List.map_cons, List.flatten_cons, List.flatMap_cons, ih,
      pushPiece, specLineKeys]
    simp

/-- The enumerated split-loop of the source equals the spec's description
of the line protocol: head line contributes alone, every later line is
preceded by an Enter. -/
theorem pushPieces_eq_spec (ls : List String) :
    ((ls.enum.map pushPiece).flatten)
      = match ls with
        | [] => []
        | w :: ws => specLineKeys w ++ ws.flatMap (fun v => Key.ctrl 'm' :: specLineKeys v) := by
  cases ls with
  | nil => rfl
  | cons w ws =>
    simp only [List.enum, List.enumFrom, List.map_cons, List.flatten_cons,
      pushPiece_enumFrom_succ, pushPiece, specLineKeys]
    simp

/-- C7: the claim restricts the control branch to `^` followed by a
LETTER.  Counterexample: on `"^1"` the code sends the control code for
`'1'`, while the claim's reading would send the literal bytes `"^1"`. -/
theorem C7_counterexample :
    ((TProcess.init "x" 1).push "^1" = [Key.ctrl '1']) ∧
    (pushSpecLetter "^1" = [Key.send "^1"]) ∧
    ((TProcess.init "x" 1).push "^1" ≠ pushSpecLetter "^1") := by
  decide

/-- C7 (amended): `push` emits exactly the claimed keystroke protocol,
with the control branch taken for `^` followed by ANY single character
(not only a letter): otherwise the text is split on line breaks, every
line after the first is preceded by an Enter, empty lines contribute only
an Enter, non-empty lines their literal bytes, and no trailing Enter is
added after the final line. -/
theorem C7_push_matches_line_protocol (p : TProcess) (text : String) :
    p.push text = pushSpecAnyChar text := by
  unfold TProcess.push pushSpecAnyChar
  split
  · rfl
  · exact pushPieces_eq_spec (splitNl text)

/-- C3: the claim states every drain step taken after the session is
already Done is a no-op.  Counterexample: a session made Done by
`terminate` at time 3 is still mutated by a later drain step — a `data`
iteration appends to the buffer, and an EOF iteration re-records
`done_time`, because `streamStep` never inspects `is_running`. -/
theorem C3_counterexample :
    ((((TProcess.init "cat" 1).run 7 0).terminate 3).is_running = false) ∧
    ((streamStep (((TProcess.init "cat" 1).run 7 0).terminate 3)
        (ReadEvent.data "x") 4).buffer
      ≠ (((TProcess.init "cat" 1).run 7 0).terminate 3).buffer) ∧
    ((streamStep (((TProcess.init "cat" 1).run 7 0).terminate 3)
        ReadEvent.eof 4).done_time
      ≠ (((TProcess.init "cat" 1).run 7 0).terminate 3).done_time) := by
  decide

/-- C3 (amended): the stream loop itself `break`s right after its EOF
iteration, so within a single loop the Done transition happens once and
no iteration runs after it — events scheduled past the first EOF are
never processed and cannot affect the state.  (A drain step is however
state-blind, so a session made Done externally by `terminate` can still
be mutated by the loop's remaining iterations, as the counterexample
shows.) -/
theorem C3_loop_stops_at_first_eof (p : TProcess)
    (pre post : List (ReadEvent × Nat)) (t : Nat) (h : hasEof pre = false) :
    streamRun p (pre ++ (ReadEvent.eof, t) :: post)
      = streamRun p (pre ++ [(ReadEvent.eof, t)]) := by
  induction pre generalizing p with
  | nil => rfl
  | cons e pre ih =>
    obtain ⟨ev, s⟩ := e
    simp only [hasEof, List.any_cons, Bool.or_eq_false_iff] at h
    cases ev with
    | data c =>
      simpa only [List.cons_append, streamRun] using ih (streamStep p (ReadEvent.data c) s)
        (by simpa [hasEof] using h.2)
    | eof => simp at h
    | nodata =>
      simpa only [List.cons_append, streamRun] using ih (streamStep p ReadEvent.nodata s)
        (by simpa [hasEof] using h.2)

/-- Witness for C3 (amended): a concrete schedule with one data chunk, an
EOF, and one more data chunk behind it — the run equals the run truncated
at the EOF. -/
theorem C3_witness :
    (hasEof [(ReadEvent.data "a", 1)] = false) ∧
    (streamRun ((TProcess.init "cat" 1).run 7 0)
        ([(ReadEvent.data "a", 1)] ++ (ReadEvent.eof, 2) :: [(ReadEvent.data "b", 3)])
      = streamRun ((TProcess.init "cat" 1).run 7 0)
        ([(ReadEvent.data "a", 1)] ++ [(ReadEvent.eof, 2)])) :=
  ⟨by decide, C3_loop_stops_at_first_eof _ _ _ _ (by decide)⟩

/-- The buffer after a stream run is the starting buffer followed by the
concatenation of exactly the chunks delivered before the first EOF. -/
theorem streamRun_buffer (p : TProcess) (evts : List (ReadEvent × Nat)) :
    (streamRun p evts).buffer = p.buffer ++ concatChunks (chunksUntilEof evts) := by
  induction evts generalizing p with
  | nil => exact (String.append_empty p.buffer).symm
  | cons e evts ih =>
    obtain ⟨ev, t⟩ := e
    cases ev with
    | data c =>
      simp only [streamRun, streamStep, chunksUntilEof, concatChunks, List.foldr_cons]
      rw [ih]
      simp [streamStep, concatChunks, String.append_assoc]
    | eof => simp [streamRun, streamStep, TProcess.done, chunksUntilEof, concatChunks,
        String.append_empty]
    | nodata => simp only [streamRun, chunksUntilEof]; rw [ih]; rfl

/-- C4: for every schedule of drain-loop iterations, `full_output` of a
freshly spawned session after the run is exactly the concatenation, in
receipt order, of the chunks the loop appended — the complete history
from position 0, not a delta. -/
theorem C4_full_output_is_concat (c : String) (r pid t : Nat)
    (evts : List (ReadEvent × Nat)) :
    (streamRun ((TProcess.init c r).run pid t) evts).full_output
      = concatChunks (chunksUntilEof evts) := by
  rw [TProcess.full_output, streamRun_buffer]
  exact String.empty_append _

/-- C5: `has_new_state(buttonsChanged, candidateOutput)` is true iff the
buttons changed, or the candidate output is non-empty and differs from
the last pushed snapshot; in particular it is false when the buttons are
unchanged and the candidate equals the last pushed snapshot. -/
theorem C5_has_new_state_iff (p : TProcess) (b : Bool) (o : String) :
    (p.has_new_state b o = true
      ↔ (b = true ∨ (o ≠ "" ∧ p.last_message ≠ some o))) ∧
    (p.last_message = some o → p.has_new_state false o = false) := by
  constructor
  · simp [TProcess.has_new_state]
  · intro h
    simp [TProcess.has_new_state, h]

/-- Witness for C5: a fresh session has `last_message = some ""`, and a
repeat push attempt with unchanged buttons and the same (empty) candidate
is reported as no new state. -/
theorem C5_witness :
    ((TProcess.init "c" 0).last_message = some "") ∧
    ((TProcess.init "c" 0).has_new_state false "" = false) :=
  ⟨rfl, (C5_has_new_state_iff (TProcess.init "c" 0) false "").2 rfl⟩

/-- Setting an interactive session preserves the flag/holder consistency
invariant: afterwards, only the new holder can carry the flag. -/
theorem InteractInv.set (s : InteractState) (p : Nat) (h : InteractInv s) :
    InteractInv (set_interactive_process s p) := by
  intro x hx
  simp only [set_interactive_process] at hx ⊢
  by_cases hxp : x = p
  · simp [hxp]
  · simp only [if_neg hxp] at hx
    cases hq : s.interactive with
    | none =>
      rw [hq] at hx
      exact absurd (h x hx) (by simp [hq])
    | some q =>
      rw [hq] at hx
      by_cases hxq : x = q
      · simp [hxq] at hx
      · simp only [if_neg hxq] at hx
        have := h x hx
        rw [hq] at this
        exact absurd this (by simpa using fun e => hxq e.symm)

/-- C6: interactive exclusivity.  From any consistent state, after
`set_interactive_process A` followed by `set_interactive_process B` with
`A ≠ B`, consistency still holds, at most one session carries the
`is_interactive_process` flag, A's flag is cleared and B's is set. -/
theorem C6_interactive_exclusive (s : InteractState) (A B : Nat)
    (hinv : InteractInv s) (hAB : A ≠ B) :
    (InteractInv (set_interactive_process (set_interactive_process s A) B)) ∧
    (∀ x y,
      (set_interactive_process (set_interactive_process s A) B).flag x = true →
      (set_interactive_process (set_interactive_process s A) B).flag y = true →
      x = y) ∧
    ((set_interactive_process (set_interactive_process s A) B).flag A = false) ∧
    ((set_interactive_process (set_interactive_process s A) B).flag B = true) := by
  have hinv2 : InteractInv (set_interactive_process (set_interactive_process s A) B) :=
    (hinv.set s A).set _ B
  refine ⟨hinv2, ?_, ?_, ?_⟩
  · intro x y hx hy
    have ex := hinv2 x hx
    have ey := hinv2 y hy
    rw [ex] at ey
    exact Option.some_injective _ ey
  · simp [set_interactive_process, hAB]
  · simp [set_interactive_process]

/-- Witness for C6: from the empty state (no holder, no flags), selecting
session 0 and then session 1 leaves 0's flag false and 1's flag true. -/
theorem C6_witness :
    ((set_interactive_process
        (set_interactive_process ⟨none, fun _ => false⟩ 0) 1).flag 0 = false) ∧
    ((set_interactive_process
        (set_interactive_process ⟨none, fun _ => false⟩ 0) 1).flag 1 = true) :=
  ⟨(C6_interactive_exclusive ⟨none, fun _ => false⟩ 0 1
      (fun x h => by simp at h) (by decide)).2.2.1,
   (C6_interactive_exclusive ⟨none, fun _ => false⟩ 0 1
      (fun x h => by simp at h) (by decide)).2.2.2⟩

/-- C8: one cleaner pass keeps exactly the registry entries that are not
(Done with `now - doneTime` beyond the 60-second lifetime); in
particular a Done session 61 seconds past `doneTime` is removed, one 59
seconds past it is kept, and every Running session is kept.  Moreover
the pass asks for deletion of exactly the derived artifacts keyed by the
removed sessions' identifiers — the pid-keyed `.html` snapshot and
`.png` screenshot of every removed session, and nothing else; in
particular both artifacts of the 61-second-old Done session are in the
deletion requests. -/
theorem C8_cleaner_evicts_expired (now : Nat) (reg : List (Nat × TProcess))
    (pid : Nat) (p : TProcess) :
    ((pid, p) ∈ cleanerStep now reg
      ↔ ((pid, p) ∈ reg
          ∧ ¬(p.is_running = false
                ∧ now - p.done_time > PROCESS_OUTPUT_LIFE_TIME))) ∧
    (p.is_running = false → now - p.done_time = 61 →
      (pid, p) ∉ cleanerStep now reg) ∧
    (p.is_running = false → now - p.done_time = 59 → (pid, p) ∈ reg →
      (pid, p) ∈ cleanerStep now reg) ∧
    (p.is_running = true → (pid, p) ∈ reg → (pid, p) ∈ cleanerStep now reg) ∧
    (∀ f, f ∈ cleanerDeletedFiles now reg
      ↔ ∃ e : Nat × TProcess, e ∈ reg ∧ e.2.is_running = false
          ∧ now - e.2.done_time > PROCESS_OUTPUT_LIFE_TIME
          ∧ (f = toString e.1 ++ ".html" ∨ f = toString e.1 ++ ".png")) ∧
    (p.is_running = false → now - p.done_time = 61 → (pid, p) ∈ reg →
      (toString pid ++ ".html") ∈ cleanerDeletedFiles now reg
        ∧ (toString pid ++ ".png") ∈ cleanerDeletedFiles now reg) := by
  have hiff : (pid, p) ∈ cleanerStep now reg
      ↔ ((pid, p) ∈ reg
          ∧ ¬(p.is_running = false
                ∧ now - p.done_time > PROCESS_OUTPUT_LIFE_TIME)) := by
    simp only [cleanerStep, List.mem_filter, cleanerRemoves, Bool.not_eq_true',
      Bool.and_eq_false_iff, Bool.not_eq_false', decide_eq_false_iff_not]
    constructor
    · rintro ⟨hm, hrem⟩
      refine ⟨hm, ?_⟩
      rintro ⟨hdone, hold⟩
      cases hrem with
      | inl h => exact absurd hdone (by simp [h])
      | inr h => exact h hold
    · rintro ⟨hm, hn⟩
      refine ⟨hm, ?_⟩
      cases hr : p.is_running with
      | true => exact Or.inl (by simp)
      | false => exact Or.inr (fun hold => hn ⟨hr, hold⟩)
  have hdel : ∀ f, f ∈ cleanerDeletedFiles now reg
      ↔ ∃ e : Nat × TProcess, e ∈ reg ∧ e.2.is_running = false
          ∧ now - e.2.done_time > PROCESS_OUTPUT_LIFE_TIME
          ∧ (f = toString e.1 ++ ".html" ∨ f = toString e.1 ++ ".png") := by
    intro f
    simp only [cleanerDeletedFiles, List.mem_flatMap, List.mem_filter, cleanerRemoves,
      Bool.and_eq_true, Bool.not_eq_true', decide_eq_true_eq, List.mem_cons,
      List.mem_singleton, List.not_mem_nil, or_false]
    constructor
    · rintro ⟨e, ⟨hm, hdone, hold⟩, hf⟩
      exact ⟨e, hm, hdone, hold, hf⟩
    · rintro ⟨e, hm, hdone, hold, hf⟩
      exact ⟨e, ⟨hm, hdone, hold⟩, hf⟩
  refine ⟨hiff, ?_, ?_, ?_, hdel, ?_⟩
  · intro hdone ht hmem
    exact (hiff.1 hmem).2 ⟨hdone, by rw [ht]; norm_num [PROCESS_OUTPUT_LIFE_TIME]⟩
  · intro hdone ht hmem
    exact hiff.2 ⟨hmem, by rw [ht]; rintro ⟨-, h⟩; norm_num [PROCESS_OUTPUT_LIFE_TIME] at h⟩
  · intro hrun hmem
    exact hiff.2 ⟨hmem, by rintro ⟨h, -⟩; rw [hrun] at h; exact Bool.true_eq_false.mp h⟩
  · intro hdone ht hmem
    have hold : now - p.done_time > PROCESS_OUTPUT_LIFE_TIME := by
      rw [ht]; norm_num [PROCESS_OUTPUT_LIFE_TIME]
    exact ⟨(hdel _).2 ⟨(pid, p), hmem, hdone, hold, Or.inl rfl⟩,
           (hdel _).2 ⟨(pid, p), hmem, hdone, hold, Or.inr rfl⟩⟩

/-- Witness for C8: at `now = 100`, the 61-second-old Done session is
absent from the cleaned registry while the 59-second-old Done session and
the Running session are still present, and the removed session's
pid-keyed HTML snapshot and screenshot are among the deletion
requests. -/
theorem C8_witness :
    ((11, procDone61) ∉ cleanerStep 100 regC8) ∧
    ((12, procDone59) ∈ cleanerStep 100 regC8) ∧
    ((13, procRunning) ∈ cleanerStep 100 regC8) ∧
    ((toString 11 ++ ".html") ∈ cleanerDeletedFiles 100 regC8) ∧
    ((toString 11 ++ ".png") ∈ cleanerDeletedFiles 100 regC8) :=
  ⟨(C8_cleaner_evicts_expired 100 regC8 11 procDone61).2.1 rfl rfl,
   (C8_cleaner_evicts_expired 100 regC8 12 procDone59).2.2.1 rfl rfl (by decide),
   (C8_cleaner_evicts_expired 100 regC8 13 procRunning).2.2.2.1 rfl (by decide),
   ((C8_cleaner_evicts_expired 100 regC8 11 procDone61).2.2.2.2.2 rfl rfl (by decide)).1,
   ((C8_cleaner_evicts_expired 100 regC8 11 procDone61).2.2.2.2.2 rfl rfl (by decide)).2⟩

/-- `update_buttons` only touches the stored button set; the
`is_partial` flag is unchanged. -/
theorem update_buttons_isPartial (p : TProcess) :
    (p.update_buttons).2.isPartial = p.isPartial := by
  simp only [TProcess.update_buttons]
  split <;> split <;> rfl

/-- The empty candidate consists entirely of (one) blank line. -/
theorem allBlankLines_empty : allBlankLines "" = true := by decide

/-- C9: the claim states that EVERY push attempt with an all-blank
candidate results in a button-only edit.  Counterexample: a session that
has never pushed (`is_partial` unset) and receives the all-blank
candidate `"\n\n"` performs a `send_message` carrying `"\n\n"` as the
body — the blank-line substitution happens only on the edit path. -/
theorem C9_counterexample :
    (((TProcess.init "c" 1).run 5 0).isPartial = false) ∧
    (allBlankLines "\n\n" = true) ∧
    ((response ((TProcess.init "c" 1).run 5 0) "\n\n" "\n\n" 7 3).1
      = OutAction.sendMsg "\n\n" (some (ButtonSet.running false))) := by
  decide

/-- C9 (amended): on a session that already has an outward message
(`is_partial` set), a push attempt whose candidate output is entirely
blank lines either skips (no new state) or performs an edit with the
text body omitted (`none`) and the buttons applied; moreover an edit
never carries the empty string as its body.  A first push instead sends
the blank candidate as-is, per the counterexample. -/
theorem C9_blank_body_omitted (p : TProcess) (m r : String) (t nid : Nat) :
    (p.isPartial = true → allBlankLines r = true →
      ((response p m r t nid).1 = OutAction.skip ∨
       (response p m r t nid).1
         = OutAction.editMsg none ((p.update_buttons).2.buttons))) ∧
    (∀ body btns,
      (response p m r t nid).1 = OutAction.editMsg body btns →
      body ≠ some "") := by
  constructor
  · intro hp hb
    simp only [response]
    split
    · exact Or.inl rfl
    · split
      · exact Or.inl rfl
      · rw [update_buttons_isPartial] at *
        simp [hp, hb]
  · intro body btns heq
    simp only [response] at heq
    split at heq
    · exact absurd heq (by simp)
    · split at heq
      · exact absurd heq (by simp)
      · split at heq
        · have hbody : body = if allBlankLines r then none else some r := by
            cases heq; rfl
          by_cases hb : allBlankLines r = true
          · rw [hbody, if_pos hb]; exact fun h => Option.noConfusion h
          · rw [hbody, if_neg hb]
            intro h
            have : r = "" := Option.some_injective _ h
            exact hb (this ▸ allBlankLines_empty)
        · exact absurd heq (by simp)

/-- Witness for C9 (amended): the partial session receiving the all-blank
candidate `"\n\n"` produces exactly the body-omitted button edit. -/
theorem C9_witness :
    (procC9.isPartial = true) ∧
    (allBlankLines "\n\n" = true) ∧
    ((response procC9 "\n\n" "\n\n" 7 3).1
      = OutAction.editMsg none (some (ButtonSet.running false))) ∧
    ((response procC9 "\n\n" "\n\n" 7 3).1 = OutAction.skip ∨
     (response procC9 "\n\n" "\n\n" 7 3).1
       = OutAction.editMsg none ((procC9.update_buttons).2.buttons)) :=
  ⟨rfl, by decide, by decide,
   (C9_blank_body_omitted procC9 "\n\n" "\n\n" 7 3).1 rfl rfl⟩

/-- C10: an incoming text that begins with a backslash, arriving while an
exclusive interactive session exists, is routed to that session's
`push` with the leading backslash removed, bypassing the `cd` / `/` /
`!` command interception. -/
theorem C10_escape_forwarded (message : String)
    (h : strStartsWith message "\\" = true) :
    all_messages_route false true message
      = Route.pushInteractive (message.drop 1) := by
  simp [all_messages_route, h]

/-- Witness for C10: the escaped text `"\ls"` is forwarded to the
interactive session as `"ls"`. -/
theorem C10_witness :
    (strStartsWith "\\ls" "\\" = true) ∧
    (all_messages_route false true "\\ls"
      = Route.pushInteractive ("\\ls".drop 1)) ∧
    ("\\ls".drop 1 = "ls") :=
  ⟨by decide, C10_escape_forwarded "\\ls" (by decide), by decide⟩

end Telminal
